import Mathlib

/-!
# OdomControl: the per-motor velocity controller of the Rover driver

A shallow embedding of `roverrobotics_driver/src/utils.cpp`.

Conventions of the embedding.

* `double` and `float` values are exact rationals (`ℚ`): rounding error, the
  narrowing of `accel` and `change_in_velocity` to `float`, infinities and NaN
  are outside the model.  Division by `dt` is only meaningful for `dt ≠ 0`.
  The theorems below are those that do not rest on this idealisation: they are
  structural, or about values that are exact in binary floating point, or stated
  relative to the value the filter returns.  Statements whose truth turns on a
  rounding step (which side of the acceleration cutoff a narrowed `float` falls,
  whether five rounded products add up to their common input) are not proved.
* `int` values are integers in the 32-bit range.  The conversion
  `(int)round(x)` is the nearest integer (ties away from zero) followed by the
  conversion to a 32-bit `int`, see `castInt32`; the single place where the
  source performs `int` addition and subtraction, `deadbandOffset`, wraps
  explicitly to 32 bits.  The cast to `unsigned char` is reduction modulo 256.
* `std::vector<double>` is `List ℚ`; `v.insert(v.begin(), x); v.pop_back()` is
  `(x :: v).dropLast`, and `v[i]` is `v.getD i 0`.
* A member function becomes a function from the object state to its return
  value paired with the new object state.  The log stream `fs_` and the unused
  function-local `static double time` carry no behaviour and are left out.
-/

namespace RoverRobotics

/-- The tuning triple `PidGains` (`Kp`, `Ki`, `Kd`). -/
structure PidGains where
  Kp : ℚ
  Ki : ℚ
  Kd : ℚ
deriving DecidableEq, Repr

/-- The data members of `OdomControl` that `utils.cpp` reads or writes. -/
structure OdomControl where
  MOTOR_MAX_ : Int
  MOTOR_MIN_ : Int
  MOTOR_DEADBAND_ : Int
  MAX_ACCEL_CUTOFF_ : ℚ
  MIN_VELOCITY_ : ℚ
  MAX_VELOCITY_ : ℚ
  K_P_ : ℚ
  K_I_ : ℚ
  K_D_ : ℚ
  velocity_filtered_history_ : List ℚ
  velocity_history_ : List ℚ
  use_control_ : Bool
  skip_measurement_ : Bool
  at_max_motor_speed_ : Bool
  at_min_motor_speed_ : Bool
  stop_integrating_ : Bool
  velocity_error_ : ℚ
  integral_error_ : ℚ
  differential_error_ : ℚ
  velocity_commanded_ : ℚ
  velocity_measured_ : ℚ
  velocity_filtered_ : ℚ
  motor_speed_ : Int
deriving DecidableEq, Repr

/-- C `fabs` on exact values. -/
def fabs (x : ℚ) : ℚ := if x < 0 then -x else x

/-- C `round`: the nearest integer, ties away from zero. -/
def cRound (x : ℚ) : Int :=
  if 0 ≤ x then Int.floor (x + 1 / 2) else -Int.floor (-x + 1 / 2)

/-- The conversion of an integral `double` to a 32-bit `int`.  A value inside
the range of `int` is kept.  For a value outside it the C++ conversion has no
defined result; the model takes what the x86-64 conversion instruction
delivers, `INT_MIN`. -/
def castInt32 (n : Int) : Int :=
  if -2147483648 ≤ n ∧ n ≤ 2147483647 then n else -2147483648

/-- The expression `(int)round(x)` of the source (utils.cpp 138, 167). -/
def roundToInt (x : ℚ) : Int := castInt32 (cRound x)

/-- The cast `(unsigned char)` applied to an `int`. -/
def toUnsignedChar (n : Int) : Int := n % 256

/-- Two's complement wrap of a mathematical integer to a 32-bit `int`. -/
def wrapInt32 (n : Int) : Int := (n + 2147483648) % 4294967296 - 2147483648

/-- `OdomControl::OdomControl()` (utils.cpp 12-35).  `motor_speed_` has no
initialiser in the source; its indeterminate value is the argument `speed0`. -/
def OdomControl.default (speed0 : Int) : OdomControl where
  MOTOR_MAX_ := 250
  MOTOR_MIN_ := 0
  MOTOR_DEADBAND_ := 9
  MAX_ACCEL_CUTOFF_ := 5.0
  MIN_VELOCITY_ := 0.03
  MAX_VELOCITY_ := 5
  K_P_ := 0
  K_I_ := 0
  K_D_ := 0
  velocity_filtered_history_ := List.replicate 5 0
  velocity_history_ := List.replicate 3 0
  use_control_ := false
  skip_measurement_ := false
  at_max_motor_speed_ := false
  at_min_motor_speed_ := false
  stop_integrating_ := false
  velocity_error_ := 0
  integral_error_ := 0
  differential_error_ := 0
  velocity_commanded_ := 0
  velocity_measured_ := 0
  velocity_filtered_ := 0
  motor_speed_ := speed0

/-- `OdomControl::OdomControl(bool, PidGains, int, int)` (utils.cpp 69-92); the
overload with a log stream (37-67) initialises the same members the same way.
`motor_speed_` has no initialiser in the source; its indeterminate value is the
argument `speed0`. -/
def OdomControl.construct (use_control : Bool) (pid_gains : PidGains)
    (max min : Int) (speed0 : Int) : OdomControl where
  MOTOR_MAX_ := max
  MOTOR_MIN_ := min
  MOTOR_DEADBAND_ := 9
  MAX_ACCEL_CUTOFF_ := 5.0
  MIN_VELOCITY_ := 0.03
  MAX_VELOCITY_ := 3
  K_P_ := pid_gains.Kp
  K_I_ := pid_gains.Ki
  K_D_ := pid_gains.Kd
  velocity_filtered_history_ := List.replicate 5 0
  velocity_history_ := List.replicate 3 0
  use_control_ := use_control
  skip_measurement_ := false
  at_max_motor_speed_ := false
  at_min_motor_speed_ := false
  stop_integrating_ := false
  velocity_error_ := 0
  integral_error_ := 0
  differential_error_ := 0
  velocity_commanded_ := 0
  velocity_measured_ := 0
  velocity_filtered_ := 0
  motor_speed_ := speed0

/-- `OdomControl::feedThroughControl` (utils.cpp 137-139): C++ `%` is the
truncated remainder. -/
def feedThroughControl (s : OdomControl) : Int :=
  Int.tmod (roundToInt (s.velocity_commanded_ + 125)) 250

/-- `OdomControl::reset` (utils.cpp 141-151): `std::fill` overwrites every
entry of the filtered history and keeps its length. -/
def reset (s : OdomControl) : OdomControl :=
  { s with
    integral_error_ := 0
    velocity_error_ := 0
    velocity_commanded_ := 0
    velocity_measured_ := 0
    velocity_filtered_ := 0
    velocity_filtered_history_ := s.velocity_filtered_history_.map (fun _ => 0)
    motor_speed_ := 125
    skip_measurement_ := false }

/-- `OdomControl::P` (utils.cpp 183-186). -/
def P (s : OdomControl) (error _dt : ℚ) : ℚ := error * s.K_P_

/-- `OdomControl::I` (utils.cpp 176-181). -/
def I (s : OdomControl) (error dt : ℚ) : ℚ × OdomControl :=
  let s1 :=
    if !s.stop_integrating_ then
      { s with integral_error_ := s.integral_error_ + error * dt }
    else s
  (s1.K_I_ * s1.integral_error_, s1)

/-- `OdomControl::D` (utils.cpp 170-174). -/
def D (s : OdomControl) (_error dt : ℚ) : ℚ × OdomControl :=
  let s1 :=
    { s with
      differential_error_ :=
        (s.velocity_filtered_history_.getD 0 0 - s.velocity_filtered_history_.getD 1 0) / dt }
  (s1.K_D_ * s1.differential_error_, s1)

/-- The value `pid_val` of `OdomControl::PID` (utils.cpp 154-157) and the object
state after the calls of `P`, `I` and `D`. -/
def pidVal (s : OdomControl) (error dt : ℚ) : ℚ × OdomControl :=
  let p_val := P s error dt
  let i := I s error dt
  let d := D i.2 error dt
  (p_val + i.1 + d.1, d.2)

/-- `OdomControl::PID` (utils.cpp 153-168). -/
def PID (s : OdomControl) (error dt : ℚ) : Int × OdomControl :=
  let r := pidVal s error dt
  let s1 :=
    if fabs r.1 > (r.2.MOTOR_MAX_ : ℚ) / 2.0 then
      { r.2 with stop_integrating_ := true }
    else
      { r.2 with stop_integrating_ := false }
  (roundToInt (r.1 + 125.0), s1)

/-- `OdomControl::hasZeroHistory` (utils.cpp 188-196). -/
def hasZeroHistory (vel_history : List ℚ) : Bool :=
  let avg :=
    (fabs (vel_history.getD 0 0) + fabs (vel_history.getD 1 0) + fabs (vel_history.getD 2 0)) / 3.0
  if avg < 0.03 then true else false

/-- `OdomControl::boundMotorSpeed` (utils.cpp 198-216). -/
def boundMotorSpeed (s : OdomControl) (motor_speed max min : Int) : Int × OdomControl :=
  let s1 := { s with at_max_motor_speed_ := false }
  let s2 := { s1 with at_min_motor_speed_ := false }
  let r1 : Int × OdomControl :=
    if motor_speed > max then (max, { s2 with at_max_motor_speed_ := true })
    else (motor_speed, s2)
  let r2 : Int × OdomControl :=
    if r1.1 < min then (min, { r1.2 with at_min_motor_speed_ := true })
    else r1
  r2

/-- `OdomControl::deadbandOffset` (utils.cpp 218-225).  For `motor_speed = 125`
control reaches the end of the function without a `return`: no value. -/
def deadbandOffset (motor_speed deadband_offset : Int) : Option Int :=
  if motor_speed > 125 then
    some (wrapInt32 (motor_speed + deadband_offset))
  else if motor_speed < 125 then
    some (wrapInt32 (motor_speed - deadband_offset))
  else none

/-- `OdomControl::filter` (utils.cpp 227-262).  The locals `accel` and
`change_in_velocity`, `float` in the source, are kept exact. -/
def filter (s : OdomControl) (velocity dt : ℚ) (firmwareBuildNumber : Int) :
    ℚ × OdomControl :=
  let accel := (velocity - s.velocity_filtered_history_.getD 0 0) / dt
  let s1 := { s with velocity_history_ := (velocity :: s.velocity_history_).dropLast }
  let s2 :=
    if firmwareBuildNumber = 100 then
      { s1 with
        velocity_filtered_ := 0.9 * velocity + 0.1 * s1.velocity_filtered_history_.getD 0 0 }
    else
      let velocity1 :=
        if accel > s1.MAX_ACCEL_CUTOFF_ then
          s1.velocity_filtered_history_.getD 0 0 + 0.5 * dt * s1.MAX_ACCEL_CUTOFF_
        else if accel < -s1.MAX_ACCEL_CUTOFF_ then
          s1.velocity_filtered_history_.getD 0 0 + -0.5 * dt * s1.MAX_ACCEL_CUTOFF_
        else velocity
      { s1 with
        velocity_filtered_ :=
          0.1 * velocity1 + 0.25 * s1.velocity_filtered_history_.getD 0 0 +
            0.30 * s1.velocity_filtered_history_.getD 1 0 +
            0.25 * s1.velocity_filtered_history_.getD 2 0 +
            0.1 * s1.velocity_filtered_history_.getD 3 0 }
  let s3 :=
    { s2 with
      velocity_filtered_history_ :=
        (s2.velocity_filtered_ :: s2.velocity_filtered_history_).dropLast }
  (s3.velocity_filtered_, s3)

/-- The first statements of `OdomControl::run` (utils.cpp 97-107): record the
arguments, truncate the build number and run the filter. -/
def filterStage (s : OdomControl) (commanded_vel measured_vel dt : ℚ)
    (firmwareBuildNumber : Int) : OdomControl :=
  let s1 := { s with velocity_commanded_ := commanded_vel }
  let s2 := { s1 with velocity_measured_ := measured_vel }
  let firmwareBuildNumberTrunc := Int.tdiv firmwareBuildNumber 100
  let r := filter s2 measured_vel dt firmwareBuildNumberTrunc
  { r.2 with velocity_filtered_ := r.1 }

/-- The outer condition of the stop-settle `if` of `OdomControl::run`
(utils.cpp 116). -/
def stopping (s : OdomControl) (commanded_vel : ℚ) : Bool :=
  decide (commanded_vel = 0) && decide (fabs s.velocity_filtered_ < 0.3)

/-- The object state after the stop-settle `if` of `OdomControl::run`
(utils.cpp 116-121) when it does not return. -/
def stopSettle (s : OdomControl) (commanded_vel : ℚ) : OdomControl :=
  if stopping s commanded_vel then { s with integral_error_ := 0 } else s

/-- The assignment `velocity_error_ = commanded_vel - velocity_filtered_` that
opens the closed-loop branch of `OdomControl::run` (utils.cpp 125). -/
def controlInput (s : OdomControl) (commanded_vel : ℚ) : OdomControl :=
  { s with velocity_error_ := commanded_vel - s.velocity_filtered_ }

/-- The control branch of `OdomControl::run` (utils.cpp 124-131). -/
def controlBranch (s : OdomControl) (control_on : Bool) (commanded_vel dt : ℚ) :
    OdomControl :=
  if control_on then
    let s1 := controlInput s commanded_vel
    if !s1.skip_measurement_ then
      let r := PID s1 s1.velocity_error_ dt
      { r.2 with motor_speed_ := r.1 }
    else s1
  else
    { s with motor_speed_ := feedThroughControl s }

/-- `OdomControl::run` (utils.cpp 94-135): the returned `unsigned char` and the
object state after the call. -/
def run (s : OdomControl) (e_stop_on control_on : Bool)
    (commanded_vel measured_vel dt : ℚ) (firmwareBuildNumber : Int) :
    Int × OdomControl :=
  let s1 := filterStage s commanded_vel measured_vel dt firmwareBuildNumber
  if e_stop_on then
    (125, reset s1)
  else
    let s2 := stopSettle s1 commanded_vel
    if stopping s1 commanded_vel && hasZeroHistory s2.velocity_filtered_history_ then
      (125, s2)
    else
      let s3 := controlBranch s2 control_on commanded_vel dt
      let b := boundMotorSpeed s3 s3.motor_speed_ s3.MOTOR_MAX_ s3.MOTOR_MIN_
      let s4 := { b.2 with motor_speed_ := b.1 }
      (toUnsignedChar s4.motor_speed_, s4)

/-- The arguments of one call of `OdomControl::run`. -/
structure Tick where
  e_stop_on : Bool
  control_on : Bool
  commanded_vel : ℚ
  measured_vel : ℚ
  dt : ℚ
  firmwareBuildNumber : Int
deriving DecidableEq, Repr

/-- One call of `run` with the arguments packed in a `Tick`. -/
def runTick (s : OdomControl) (t : Tick) : Int × OdomControl :=
  run s t.e_stop_on t.control_on t.commanded_vel t.measured_vel t.dt t.firmwareBuildNumber

/-- The object state after a sequence of calls of `run`, first tick first. -/
def runAll (s : OdomControl) : List Tick → OdomControl
  | [] => s
  | t :: ts => runAll (runTick s t).2 ts

/-- The commands returned by a sequence of calls of `run`, first tick first. -/
def runOutputs (s : OdomControl) : List Tick → List Int
  | [] => []
  | t :: ts => (runTick s t).1 :: runOutputs (runTick s t).2 ts

/-- The states a constructor of `OdomControl` produces. -/
def Constructed (s : OdomControl) : Prop :=
  (∃ speed0, s = OdomControl.default speed0) ∨
  (∃ use_control pid_gains max min speed0,
    s = OdomControl.construct use_control pid_gains max min speed0)

/-- The invariant of the proportional-only scenario: gains `1, 0, 0`, command
range `0..250`, the constructors' acceleration cutoff, measurements in use and
an all-zero filtered history. -/
def ProportionalOnly (s : OdomControl) : Prop :=
  s.K_P_ = 1 ∧ s.K_I_ = 0 ∧ s.K_D_ = 0 ∧ s.MOTOR_MAX_ = 250 ∧ s.MOTOR_MIN_ = 0 ∧
    s.MAX_ACCEL_CUTOFF_ = 5 ∧ s.skip_measurement_ = false ∧
    s.velocity_filtered_history_ = [0, 0, 0, 0, 0]

/-- The filter stage pushes the measured velocity onto the raw history. -/
theorem filterStage_velocity_history (s : OdomControl) (c m dt : ℚ) (fw : Int) :
    (filterStage s c m dt fw).velocity_history_ = (m :: s.velocity_history_).dropLast := by
  simp only [filterStage, filter]
  split_ifs <;> rfl

/-- The filter stage pushes the filtered velocity onto the filtered history. -/
theorem filterStage_filtered_history (s : OdomControl) (c m dt : ℚ) (fw : Int) :
    (filterStage s c m dt fw).velocity_filtered_history_ =
      ((filterStage s c m dt fw).velocity_filtered_ :: s.velocity_filtered_history_).dropLast := by
  simp only [filterStage, filter]
  split_ifs <;> rfl

/-- The filter stage keeps the command bounds. -/
theorem filterStage_bounds (s : OdomControl) (c m dt : ℚ) (fw : Int) :
    (filterStage s c m dt fw).MOTOR_MAX_ = s.MOTOR_MAX_ ∧
      (filterStage s c m dt fw).MOTOR_MIN_ = s.MOTOR_MIN_ := by
  simp only [filterStage, filter]
  split_ifs <;> exact ⟨rfl, rfl⟩

/-- The filter stage keeps the integral error and the two control flags. -/
theorem filterStage_control_fields (s : OdomControl) (c m dt : ℚ) (fw : Int) :
    (filterStage s c m dt fw).integral_error_ = s.integral_error_ ∧
      (filterStage s c m dt fw).stop_integrating_ = s.stop_integrating_ ∧
      (filterStage s c m dt fw).skip_measurement_ = s.skip_measurement_ := by
  simp only [filterStage, filter]
  split_ifs <;> exact ⟨rfl, rfl, rfl⟩

/-- The filter stage keeps the length of both histories. -/
theorem filterStage_lengths (s : OdomControl) (c m dt : ℚ) (fw : Int) :
    (filterStage s c m dt fw).velocity_filtered_history_.length =
        s.velocity_filtered_history_.length ∧
      (filterStage s c m dt fw).velocity_history_.length = s.velocity_history_.length := by
  rw [filterStage_filtered_history, filterStage_velocity_history]
  simp

/-- The stop-settle stage keeps the command bounds. -/
theorem stopSettle_bounds (s : OdomControl) (c : ℚ) :
    (stopSettle s c).MOTOR_MAX_ = s.MOTOR_MAX_ ∧ (stopSettle s c).MOTOR_MIN_ = s.MOTOR_MIN_ := by
  unfold stopSettle
  split_ifs <;> exact ⟨rfl, rfl⟩

/-- The stop-settle stage keeps both histories. -/
theorem stopSettle_histories (s : OdomControl) (c : ℚ) :
    (stopSettle s c).velocity_filtered_history_ = s.velocity_filtered_history_ ∧
      (stopSettle s c).velocity_history_ = s.velocity_history_ := by
  unfold stopSettle
  split_ifs <;> exact ⟨rfl, rfl⟩

/-- The control branch keeps the command bounds. -/
theorem controlBranch_bounds (s : OdomControl) (control_on : Bool) (c dt : ℚ) :
    (controlBranch s control_on c dt).MOTOR_MAX_ = s.MOTOR_MAX_ ∧
      (controlBranch s control_on c dt).MOTOR_MIN_ = s.MOTOR_MIN_ := by
  simp only [controlBranch, controlInput, PID, pidVal, I, D]
  split_ifs <;> exact ⟨rfl, rfl⟩

/-- The control branch keeps both histories. -/
theorem controlBranch_histories (s : OdomControl) (control_on : Bool) (c dt : ℚ) :
    (controlBranch s control_on c dt).velocity_filtered_history_ = s.velocity_filtered_history_ ∧
      (controlBranch s control_on c dt).velocity_history_ = s.velocity_history_ := by
  simp only [controlBranch, controlInput, PID, pidVal, I, D]
  split_ifs <;> exact ⟨rfl, rfl⟩

/-- The bound stage returns a value between `min` and `max` when `min ≤ max`. -/
theorem boundMotorSpeed_range (s : OdomControl) (motor_speed max min : Int) (h : min ≤ max) :
    min ≤ (boundMotorSpeed s motor_speed max min).1 ∧
      (boundMotorSpeed s motor_speed max min).1 ≤ max := by
  simp only [boundMotorSpeed]
  split_ifs <;> constructor <;> simp only [] <;> omega

/-- The bound stage keeps both histories. -/
theorem boundMotorSpeed_histories (s : OdomControl) (motor_speed max min : Int) :
    (boundMotorSpeed s motor_speed max min).2.velocity_filtered_history_ =
        s.velocity_filtered_history_ ∧
      (boundMotorSpeed s motor_speed max min).2.velocity_history_ = s.velocity_history_ := by
  simp only [boundMotorSpeed]
  split_ifs <;> exact ⟨rfl, rfl⟩

/-- The bound stage keeps the integral error and the freeze flag. -/
theorem boundMotorSpeed_control_fields (s : OdomControl) (motor_speed max min : Int) :
    (boundMotorSpeed s motor_speed max min).2.integral_error_ = s.integral_error_ ∧
      (boundMotorSpeed s motor_speed max min).2.stop_integrating_ = s.stop_integrating_ := by
  simp only [boundMotorSpeed]
  split_ifs <;> exact ⟨rfl, rfl⟩

/-- An estop tick is the filter stage followed by `reset`. -/
theorem run_estop_state (s : OdomControl) (control_on : Bool) (c m dt : ℚ) (fw : Int) :
    run s true control_on c m dt fw = (125, reset (filterStage s c m dt fw)) := by
  simp [run]

/-- The state after a tick that reaches the control branch. -/
theorem run_control_state (s : OdomControl) (control_on : Bool) (c m dt : ℚ) (fw : Int)
    (hrun : (stopping (filterStage s c m dt fw) c &&
      hasZeroHistory (stopSettle (filterStage s c m dt fw) c).velocity_filtered_history_) = false) :
    (run s false control_on c m dt fw).2 =
      { (boundMotorSpeed (controlBranch (stopSettle (filterStage s c m dt fw) c) control_on c dt)
          (controlBranch (stopSettle (filterStage s c m dt fw) c) control_on c dt).motor_speed_
          (controlBranch (stopSettle (filterStage s c m dt fw) c) control_on c dt).MOTOR_MAX_
          (controlBranch (stopSettle (filterStage s c m dt fw) c) control_on c dt).MOTOR_MIN_).2
        with motor_speed_ :=
          (boundMotorSpeed
            (controlBranch (stopSettle (filterStage s c m dt fw) c) control_on c dt)
            (controlBranch (stopSettle (filterStage s c m dt fw) c) control_on c dt).motor_speed_
            (controlBranch (stopSettle (filterStage s c m dt fw) c) control_on c dt).MOTOR_MAX_
            (controlBranch (stopSettle (filterStage s c m dt fw) c) control_on c dt).MOTOR_MIN_).1 }
    := by
  simp only [run, hrun, Bool.false_eq_true, ↓reduceIte]

/-- One call of `run` keeps the length of both histories. -/
theorem run_lengths (s : OdomControl) (e_stop_on control_on : Bool) (c m dt : ℚ) (fw : Int) :
    (run s e_stop_on control_on c m dt fw).2.velocity_filtered_history_.length =
        s.velocity_filtered_history_.length ∧
      (run s e_stop_on control_on c m dt fw).2.velocity_history_.length =
        s.velocity_history_.length := by
  have hf := filterStage_lengths s c m dt fw
  have hs := stopSettle_histories (filterStage s c m dt fw) c
  unfold run
  simp only []
  split_ifs with h1 h2
  · simpa [reset] using hf
  · rw [hs.1, hs.2]; exact hf
  · have hc := controlBranch_histories (stopSettle (filterStage s c m dt fw) c) control_on c dt
    have hb := boundMotorSpeed_histories
      (controlBranch (stopSettle (filterStage s c m dt fw) c) control_on c dt)
      (controlBranch (stopSettle (filterStage s c m dt fw) c) control_on c dt).motor_speed_
      (controlBranch (stopSettle (filterStage s c m dt fw) c) control_on c dt).MOTOR_MAX_
      (controlBranch (stopSettle (filterStage s c m dt fw) c) control_on c dt).MOTOR_MIN_
    simp only [hb.1, hb.2, hc.1, hc.2, hs.1, hs.2]
    exact hf

/-- A sequence of calls of `run` keeps the length of both histories. -/
theorem runAll_lengths (ticks : List Tick) (s : OdomControl) :
    (runAll s ticks).velocity_filtered_history_.length = s.velocity_filtered_history_.length ∧
      (runAll s ticks).velocity_history_.length = s.velocity_history_.length := by
  induction ticks generalizing s with
  | nil => exact ⟨rfl, rfl⟩
  | cons t ts ih =>
    have h := run_lengths s t.e_stop_on t.control_on t.commanded_vel t.measured_vel t.dt
      t.firmwareBuildNumber
    have h2 := ih (runTick s t).2
    simp only [runAll]
    unfold runTick at h2 ⊢
    rw [h2.1, h2.2]
    exact h

/-- Overwriting every entry with 0 gives the all-zero list of the same length. -/
theorem map_zero_eq_replicate (l : List ℚ) :
    l.map (fun _ => (0 : ℚ)) = List.replicate l.length 0 := by
  induction l with
  | nil => rfl
  | cons a l ih => simp [List.replicate_succ, ih]

/-- With integration frozen, `I` leaves the state alone. -/
theorem I_frozen (s : OdomControl) (error dt : ℚ) (hfrozen : s.stop_integrating_ = true) :
    I s error dt = (s.K_I_ * s.integral_error_, s) := by
  simp [I, hfrozen]

/-- With integration frozen, the three PID terms leave the integral error alone. -/
theorem pidVal_frozen (s : OdomControl) (error dt : ℚ) (hfrozen : s.stop_integrating_ = true) :
    (pidVal s error dt).2.integral_error_ = s.integral_error_ := by
  simp only [pidVal, I_frozen s error dt hfrozen, D]

/-- The freeze decision of `PID` does not touch the integral error. -/
theorem PID_integral (s : OdomControl) (error dt : ℚ) :
    (PID s error dt).2.integral_error_ = (pidVal s error dt).2.integral_error_ := by
  unfold PID
  simp only []
  split_ifs <;> rfl

/-- With integration frozen, the closed-loop branch leaves the integral error alone. -/
theorem controlBranch_frozen (s : OdomControl) (c dt : ℚ) (hfrozen : s.stop_integrating_ = true) :
    (controlBranch s true c dt).integral_error_ = s.integral_error_ := by
  have hin : (controlInput s c).stop_integrating_ = true := hfrozen
  unfold controlBranch
  simp only [if_true]
  split_ifs
  · show (PID _ _ _).2.integral_error_ = _
    rw [PID_integral, pidVal_frozen _ _ _ hin]
    rfl
  · rfl

/-- A saturated PID value sets the freeze flag. -/
theorem controlBranch_saturated (s : OdomControl) (c dt : ℚ)
    (hskip : s.skip_measurement_ = false)
    (hsat : fabs (pidVal (controlInput s c) (controlInput s c).velocity_error_ dt).1 >
      (s.MOTOR_MAX_ : ℚ) / 2) :
    (controlBranch s true c dt).stop_integrating_ = true := by
  have hsk : (controlInput s c).skip_measurement_ = false := hskip
  have hmax : (pidVal (controlInput s c) (controlInput s c).velocity_error_ dt).2.MOTOR_MAX_
      = s.MOTOR_MAX_ := by
    simp only [pidVal, I, D, controlInput]
    split_ifs <;> rfl
  have h2 : (2.0 : ℚ) = 2 := by norm_num
  simp only [controlBranch, PID, hsk, hmax, h2]
  rw [if_pos hsat]
  rfl

/-- A closed-loop tick with a non-zero command and integration frozen keeps the integral error. -/
theorem run_frozen_keeps_integral (s : OdomControl) (c m dt : ℚ) (fw : Int)
    (hfrozen : s.stop_integrating_ = true) (hc : c ≠ 0) :
    (run s false true c m dt fw).2.integral_error_ = s.integral_error_ := by
  have hf := filterStage_control_fields s c m dt fw
  have hstop : stopping (filterStage s c m dt fw) c = false := by simp [stopping, hc]
  have hsettle : stopSettle (filterStage s c m dt fw) c = filterStage s c m dt fw := by
    simp [stopSettle, hstop]
  rw [run_control_state s true c m dt fw (by simp [hstop])]
  show (boundMotorSpeed _ _ _ _).2.integral_error_ = _
  rw [(boundMotorSpeed_control_fields _ _ _ _).1, hsettle,
    controlBranch_frozen _ c dt (hf.2.1.trans hfrozen), hf.1]

/-- A closed-loop tick whose PID value saturates ends with integration frozen. -/
theorem run_saturated_sets_frozen (s : OdomControl) (c m dt : ℚ) (fw : Int)
    (hskip : s.skip_measurement_ = false)
    (hrun : (stopping (filterStage s c m dt fw) c &&
      hasZeroHistory (stopSettle (filterStage s c m dt fw) c).velocity_filtered_history_) = false)
    (hsat : fabs (pidVal (controlInput (stopSettle (filterStage s c m dt fw) c) c)
        (controlInput (stopSettle (filterStage s c m dt fw) c) c).velocity_error_ dt).1 >
      (s.MOTOR_MAX_ : ℚ) / 2) :
    (run s false true c m dt fw).2.stop_integrating_ = true := by
  have hf := filterStage_control_fields s c m dt fw
  have hb := filterStage_bounds s c m dt fw
  have hsb := stopSettle_bounds (filterStage s c m dt fw) c
  have hsk : (stopSettle (filterStage s c m dt fw) c).skip_measurement_ = false := by
    unfold stopSettle
    split_ifs <;> simp [hf.2.2, hskip]
  rw [run_control_state s true c m dt fw hrun]
  show (boundMotorSpeed _ _ _ _).2.stop_integrating_ = _
  rw [(boundMotorSpeed_control_fields _ _ _ _).2]
  apply controlBranch_saturated _ c dt hsk
  rw [hsb.1, hb.1]
  exact hsat

/-- The conversion to `int` keeps a value inside the 32-bit range. -/
theorem castInt32_of_inRange (n : Int) (hlo : -2147483648 ≤ n) (hhi : n ≤ 2147483647) :
    castInt32 n = n := by
  unfold castInt32
  rw [if_pos ⟨hlo, hhi⟩]

/-- Rounding an integer value gives that integer. -/
theorem cRound_intCast (n : Int) : cRound (n : ℚ) = n := by
  unfold cRound
  have h : Int.floor ((n : ℚ) + 1 / 2) = n := by
    rw [Int.floor_eq_iff]
    constructor <;> norm_num
  have h2 : Int.floor (-(n : ℚ) + 1 / 2) = -n := by
    rw [Int.floor_eq_iff]
    constructor <;> push_cast <;> norm_num
  split_ifs
  · exact h
  · rw [h2]; ring

/-- Rounding and converting an integer value of the 32-bit range gives that
integer. -/
theorem roundToInt_intCast (n : Int) (hlo : -2147483648 ≤ n) (hhi : n ≤ 2147483647) :
    roundToInt (n : ℚ) = n := by
  unfold roundToInt
  rw [cRound_intCast]
  exact castInt32_of_inRange n hlo hhi

/-- In the proportional-only scenario the filter stage yields 0 and keeps the invariant. -/
theorem proportional_filterStage (s : OdomControl) (dt : ℚ) (fw : Int)
    (hs : ProportionalOnly s) :
    (filterStage s 1 0 dt fw).velocity_filtered_ = 0 ∧
      ProportionalOnly (filterStage s 1 0 dt fw) := by
  obtain ⟨h1, h2, h3, h4, h5, h6, h7, h8⟩ := hs
  unfold ProportionalOnly
  simp only [filterStage, filter, h8, h6]
  norm_num
  exact ⟨h1, h2, h3, h4, h5, h7⟩

/-- In the proportional-only scenario one tick returns 126 and keeps the invariant. -/
theorem proportional_step (s : OdomControl) (dt : ℚ) (fw : Int) (hs : ProportionalOnly s) :
    (run s false true 1 0 dt fw).1 = 126 ∧
      ProportionalOnly (run s false true 1 0 dt fw).2 := by
  obtain ⟨hv, h1, h2, h3, h4, h5, h6, h7, h8⟩ := proportional_filterStage s dt fw hs
  have hstop : stopping (filterStage s 1 0 dt fw) 1 = false := by simp [stopping]
  have hsettle : stopSettle (filterStage s 1 0 dt fw) 1 = filterStage s 1 0 dt fw := by
    simp [stopSettle, hstop]
  unfold ProportionalOnly
  simp only [run, hstop, hsettle, Bool.false_and, Bool.false_eq_true, ↓reduceIte]
  generalize filterStage s 1 0 dt fw = s1 at *
  have hr : roundToInt (126 : ℚ) = 126 := roundToInt_intCast 126 (by norm_num) (by norm_num)
  have hpid : PID (controlInput s1 1) (controlInput s1 1).velocity_error_ dt =
      (126, { (pidVal (controlInput s1 1) (controlInput s1 1).velocity_error_ dt).2 with
        stop_integrating_ := false }) := by
    have h126 : (1 : ℚ) + 125 = 126 := by norm_num
    rcases Bool.eq_false_or_eq_true s1.stop_integrating_ with hsi | hsi <;>
      simp [PID, pidVal, P, I, D, controlInput, h1, h2, h3, h4, h8, hv, hsi, h126, hr] <;>
      norm_num [fabs, hr]
  have hcb : controlBranch s1 true 1 dt =
      { (pidVal (controlInput s1 1) (controlInput s1 1).velocity_error_ dt).2 with
        stop_integrating_ := false, motor_speed_ := 126 } := by
    have hsk : (controlInput s1 1).skip_measurement_ = false := h7
    simp only [controlBranch, hsk, hpid]
    rfl
  rw [hcb]
  simp only [pidVal, I, D, controlInput, boundMotorSpeed, toUnsignedChar]
  split_ifs <;> simp_all

/-- In the proportional-only scenario every tick returns 126. -/
theorem runOutputs_proportional (n : Nat) (s : OdomControl) (dt : ℚ) (fw : Int)
    (hs : ProportionalOnly s) :
    runOutputs s (List.replicate n ⟨false, true, 1, 0, dt, fw⟩) = List.replicate n 126 := by
  induction n generalizing s with
  | zero => rfl
  | succ k ih =>
    have h := proportional_step s dt fw hs
    simp only [List.replicate_succ, runOutputs, runTick]
    rw [h.1, ih _ h.2]

/-- The filter stage records the commanded velocity. -/
theorem filterStage_velocity_commanded (s : OdomControl) (c m dt : ℚ) (fw : Int) :
    (filterStage s c m dt fw).velocity_commanded_ = c := by
  simp only [filterStage, filter]
  split_ifs <;> rfl

/-- The stop-settle stage keeps the commanded velocity. -/
theorem stopSettle_velocity_commanded (s : OdomControl) (c : ℚ) :
    (stopSettle s c).velocity_commanded_ = s.velocity_commanded_ := by
  unfold stopSettle
  split_ifs <;> rfl

/-- Open-loop feed-through below the wrap point: on a controller with command
range 0..250, when `round(c + 125)` lies in 0..249 the open-loop call returns
exactly `round(c + 125)`. -/
theorem run_feedThrough_below_wrap (s : OdomControl) (c m dt : ℚ) (fw : Int)
    (hmax : s.MOTOR_MAX_ = 250) (hmin : s.MOTOR_MIN_ = 0)
    (hlo : 0 ≤ roundToInt (c + 125)) (hhi : roundToInt (c + 125) < 250) :
    (run s false false c m dt fw).1 = roundToInt (c + 125) := by
  have hf := filterStage_bounds s c m dt fw
  have hs := stopSettle_bounds (filterStage s c m dt fw) c
  have hc : (stopSettle (filterStage s c m dt fw) c).velocity_commanded_ = c := by
    rw [stopSettle_velocity_commanded, filterStage_velocity_commanded]
  simp only [run, Bool.false_eq_true, ↓reduceIte]
  split_ifs with h2
  · have hc0 : c = 0 := by
      simp only [stopping, Bool.and_eq_true, decide_eq_true_eq] at h2
      exact h2.1.1
    subst hc0
    have h125 : roundToInt ((0 : ℚ) + 125) = 125 := by
      rw [zero_add]
      exact roundToInt_intCast 125 (by norm_num) (by norm_num)
    exact h125.symm
  · have hm : (controlBranch (stopSettle (filterStage s c m dt fw) c) false c dt).motor_speed_
        = roundToInt (c + 125) := by
      simp only [controlBranch, feedThroughControl, hc, Bool.false_eq_true, ↓reduceIte]
      exact Int.tmod_eq_of_lt hlo hhi
    have hb := controlBranch_bounds (stopSettle (filterStage s c m dt fw) c) false c dt
    simp only [hm, hb.1, hb.2, hs.1, hs.2, hf.1, hf.2, hmax, hmin, boundMotorSpeed,
      toUnsignedChar]
    split_ifs <;> omega

/-- Wrapping a value that is representable as a 32-bit `int` changes nothing. -/
theorem wrapInt32_of_inRange (n : Int) (hlo : -2147483648 ≤ n) (hhi : n ≤ 2147483647) :
    wrapInt32 n = n := by
  unfold wrapInt32
  omega

/-- The filtered velocity after the filter stage is the value `filter` returns. -/
theorem filterStage_velocity_filtered (s : OdomControl) (c m dt : ℚ) (fw : Int) :
    (filterStage s c m dt fw).velocity_filtered_ =
      (filter s m dt (Int.tdiv fw 100)).1 := by
  simp only [filterStage, filter]
  split_ifs <;> rfl

/-- A tick without estop leaves both histories as the filter stage made them. -/
theorem run_histories (s : OdomControl) (control_on : Bool) (c m dt : ℚ) (fw : Int) :
    (run s false control_on c m dt fw).2.velocity_filtered_history_ =
        (filterStage s c m dt fw).velocity_filtered_history_ ∧
      (run s false control_on c m dt fw).2.velocity_history_ =
        (filterStage s c m dt fw).velocity_history_ := by
  have hs := stopSettle_histories (filterStage s c m dt fw) c
  simp only [run, Bool.false_eq_true, ↓reduceIte]
  split_ifs with h2
  · exact hs
  · have hc := controlBranch_histories (stopSettle (filterStage s c m dt fw) c) control_on c dt
    have hb := boundMotorSpeed_histories
      (controlBranch (stopSettle (filterStage s c m dt fw) c) control_on c dt)
      (controlBranch (stopSettle (filterStage s c m dt fw) c) control_on c dt).motor_speed_
      (controlBranch (stopSettle (filterStage s c m dt fw) c) control_on c dt).MOTOR_MAX_
      (controlBranch (stopSettle (filterStage s c m dt fw) c) control_on c dt).MOTOR_MIN_
    simp only [hb.1, hb.2, hc.1, hc.2, hs.1, hs.2]
    exact ⟨trivial, trivial⟩

/-- The value of `fabs` is never negative. -/
theorem fabs_nonneg (x : ℚ) : 0 ≤ fabs x := by
  unfold fabs
  split_ifs with h
  · linarith
  · exact not_lt.mp h

/-- The stop-settle stage zeroes the integral error when the stop condition
holds. -/
theorem stopSettle_integral (s : OdomControl) (c : ℚ) (h : stopping s c = true) :
    (stopSettle s c).integral_error_ = 0 := by
  simp [stopSettle, h]

/-- The stop-settle stage changes the integral error only. -/
theorem stopSettle_eq (s : OdomControl) (c : ℚ) :
    stopSettle s c =
      { s with integral_error_ := if stopping s c then 0 else s.integral_error_ } := by
  unfold stopSettle
  split_ifs <;> rfl

/-- The filter stage keeps the acceleration cutoff. -/
theorem filterStage_cutoff (s : OdomControl) (c m dt : ℚ) (fw : Int) :
    (filterStage s c m dt fw).MAX_ACCEL_CUTOFF_ = s.MAX_ACCEL_CUTOFF_ := by
  simp only [filterStage, filter]
  split_ifs <;> rfl

/-- The control branch keeps the acceleration cutoff and the skip flag. -/
theorem controlBranch_config (s : OdomControl) (control_on : Bool) (c dt : ℚ) :
    (controlBranch s control_on c dt).MAX_ACCEL_CUTOFF_ = s.MAX_ACCEL_CUTOFF_ ∧
      (controlBranch s control_on c dt).skip_measurement_ = s.skip_measurement_ := by
  simp only [controlBranch, controlInput, PID, pidVal, I, D]
  split_ifs <;> exact ⟨rfl, rfl⟩

/-- The bound stage keeps the acceleration cutoff and the skip flag. -/
theorem boundMotorSpeed_config (s : OdomControl) (motor_speed max min : Int) :
    (boundMotorSpeed s motor_speed max min).2.MAX_ACCEL_CUTOFF_ = s.MAX_ACCEL_CUTOFF_ ∧
      (boundMotorSpeed s motor_speed max min).2.skip_measurement_ = s.skip_measurement_ := by
  simp only [boundMotorSpeed]
  split_ifs <;> exact ⟨rfl, rfl⟩

/-- One call of `run` keeps the acceleration cutoff, and keeps the skip flag
cleared. -/
theorem run_config (s : OdomControl) (e_stop_on control_on : Bool) (c m dt : ℚ) (fw : Int) :
    (run s e_stop_on control_on c m dt fw).2.MAX_ACCEL_CUTOFF_ = s.MAX_ACCEL_CUTOFF_ ∧
      (s.skip_measurement_ = false →
        (run s e_stop_on control_on c m dt fw).2.skip_measurement_ = false) := by
  have hf := filterStage_cutoff s c m dt fw
  have hk := (filterStage_control_fields s c m dt fw).2.2
  have hse := stopSettle_eq (filterStage s c m dt fw) c
  cases e_stop_on
  · simp only [run, Bool.false_eq_true, ↓reduceIte]
    split_ifs with h2
    · rw [hse]
      exact ⟨hf, fun h => hk.trans h⟩
    · have hc := controlBranch_config (stopSettle (filterStage s c m dt fw) c) control_on c dt
      have hb := boundMotorSpeed_config
        (controlBranch (stopSettle (filterStage s c m dt fw) c) control_on c dt)
        (controlBranch (stopSettle (filterStage s c m dt fw) c) control_on c dt).motor_speed_
        (controlBranch (stopSettle (filterStage s c m dt fw) c) control_on c dt).MOTOR_MAX_
        (controlBranch (stopSettle (filterStage s c m dt fw) c) control_on c dt).MOTOR_MIN_
      simp only [hb.1, hb.2, hc.1, hc.2]
      rw [hse]
      exact ⟨hf, fun h => hk.trans h⟩
  · rw [run_estop_state]
    exact ⟨hf, fun _ => rfl⟩

/-- In every state reached from a constructor by calls of `run` the
acceleration cutoff is 5 and the skip flag is cleared. -/
theorem runAll_config (ticks : List Tick) (s : OdomControl)
    (hcut : s.MAX_ACCEL_CUTOFF_ = 5) (hskip : s.skip_measurement_ = false) :
    (runAll s ticks).MAX_ACCEL_CUTOFF_ = 5 ∧ (runAll s ticks).skip_measurement_ = false := by
  induction ticks generalizing s with
  | nil => exact ⟨hcut, hskip⟩
  | cons t ts ih =>
    have h := run_config s t.e_stop_on t.control_on t.commanded_vel t.measured_vel t.dt
      t.firmwareBuildNumber
    simp only [runAll]
    exact ih (runTick s t).2 (h.1.trans hcut) (h.2 hskip)

/-- The constructors set the acceleration cutoff to 5 and clear the skip flag. -/
theorem constructed_config (s : OdomControl) (hs : Constructed s) :
    s.MAX_ACCEL_CUTOFF_ = 5 ∧ s.skip_measurement_ = false := by
  rcases hs with ⟨speed0, rfl⟩ | ⟨use_control, pid_gains, max, min, speed0, rfl⟩
  · exact ⟨by norm_num [OdomControl.default], rfl⟩
  · exact ⟨by norm_num [OdomControl.construct], rfl⟩

/-! ## The claims -/

/-- Claim C1.  Estop always wins: for every controller state, every commanded and
measured velocity, either value of `control_on`, every firmware build number and
every `dt > 0`, `run` called with `e_stop_on = true` returns the neutral command
125 and leaves `integral_error_` equal to 0. -/
theorem run_estop_neutral (s : OdomControl) (control_on : Bool)
    (commanded_vel measured_vel dt : ℚ) (firmwareBuildNumber : Int) (_hdt : 0 < dt) :
    (run s true control_on commanded_vel measured_vel dt firmwareBuildNumber).1 = 125 ∧
      (run s true control_on commanded_vel measured_vel dt firmwareBuildNumber).2.integral_error_
        = 0 := by
  simp [run, reset]

/-- The theorem above at a concrete input. -/
theorem run_estop_neutral_witness :
    (0 : ℚ) < 1 / 10 ∧
      (run (OdomControl.construct true ⟨1, 1, 1⟩ 250 0 0) true true 1000 3 (1 / 10) 10000).1 = 125 ∧
      (run (OdomControl.construct true ⟨1, 1, 1⟩ 250 0 0)
        true true 1000 3 (1 / 10) 10000).2.integral_error_ = 0 :=
  ⟨by norm_num,
    run_estop_neutral (OdomControl.construct true ⟨1, 1, 1⟩ 250 0 0) true 1000 3 (1 / 10) 10000
      (by norm_num)⟩

/-- Claim C2.  With `MOTOR_MAX_ = 250` and `MOTOR_MIN_ = 0`, for every controller
state and every combination of arguments of `run` with `dt > 0` (estop on or
off, control on or off, any commanded and measured velocity), the returned
command lies in the closed range 0..250. -/
theorem run_command_in_range (s : OdomControl) (e_stop_on control_on : Bool)
    (commanded_vel measured_vel dt : ℚ) (firmwareBuildNumber : Int)
    (hmax : s.MOTOR_MAX_ = 250) (hmin : s.MOTOR_MIN_ = 0) (_hdt : 0 < dt) :
    0 ≤ (run s e_stop_on control_on commanded_vel measured_vel dt firmwareBuildNumber).1 ∧
      (run s e_stop_on control_on commanded_vel measured_vel dt firmwareBuildNumber).1 ≤ 250 := by
  unfold run
  simp only []
  split_ifs with h1 h2
  · simp
  · simp
  · simp only [toUnsignedChar]
    have hb := controlBranch_bounds
      (stopSettle (filterStage s commanded_vel measured_vel dt firmwareBuildNumber) commanded_vel)
      control_on commanded_vel dt
    have hs := stopSettle_bounds
      (filterStage s commanded_vel measured_vel dt firmwareBuildNumber) commanded_vel
    have hf := filterStage_bounds s commanded_vel measured_vel dt firmwareBuildNumber
    rw [hb.1, hb.2, hs.1, hs.2, hf.1, hf.2, hmax, hmin]
    have hr := boundMotorSpeed_range
      (controlBranch (stopSettle (filterStage s commanded_vel measured_vel dt firmwareBuildNumber)
        commanded_vel) control_on commanded_vel dt)
      (controlBranch (stopSettle (filterStage s commanded_vel measured_vel dt firmwareBuildNumber)
        commanded_vel) control_on commanded_vel dt).motor_speed_ 250 0 (by norm_num)
    omega

/-- The theorem above at a concrete input. -/
theorem run_command_in_range_witness :
    0 ≤ (run (OdomControl.default 0) false false (-1000) 2 (1 / 10) 0).1 ∧
      (run (OdomControl.default 0) false false (-1000) 2 (1 / 10) 0).1 ≤ 250 :=
  run_command_in_range (OdomControl.default 0) false false (-1000) 2 (1 / 10) 0 rfl rfl
    (by norm_num)

/-- Claim C3.  History-length invariant: starting from a constructed controller,
after every finite sequence of calls of `run` the filtered-velocity history has
exactly 5 entries and the raw-velocity history has exactly 3. -/
theorem history_lengths (s : OdomControl) (hs : Constructed s) (ticks : List Tick) :
    (runAll s ticks).velocity_filtered_history_.length = 5 ∧
      (runAll s ticks).velocity_history_.length = 3 := by
  have h := runAll_lengths ticks s
  rw [h.1, h.2]
  rcases hs with ⟨speed0, rfl⟩ | ⟨use_control, pid_gains, max, min, speed0, rfl⟩
  · exact ⟨rfl, rfl⟩
  · exact ⟨rfl, rfl⟩

/-- The theorem above at a concrete input. -/
theorem history_lengths_witness :
    Constructed (OdomControl.construct true ⟨1, 0, 0⟩ 250 0 0) ∧
      (runAll (OdomControl.construct true ⟨1, 0, 0⟩ 250 0 0)
          [⟨false, true, 1, 0, 1 / 10, 0⟩, ⟨true, true, 1, 2, 1 / 10, 10000⟩,
            ⟨false, false, 0, 0, 1 / 10, 0⟩]).velocity_filtered_history_.length = 5 ∧
      (runAll (OdomControl.construct true ⟨1, 0, 0⟩ 250 0 0)
          [⟨false, true, 1, 0, 1 / 10, 0⟩, ⟨true, true, 1, 2, 1 / 10, 10000⟩,
            ⟨false, false, 0, 0, 1 / 10, 0⟩]).velocity_history_.length = 3 :=
  ⟨Or.inr ⟨true, ⟨1, 0, 0⟩, 250, 0, 0, rfl⟩,
    history_lengths _ (Or.inr ⟨true, ⟨1, 0, 0⟩, 250, 0, 0, rfl⟩) _⟩

/-- Claim C4, counterexample.  On the default-constructed controller, two estop
calls with measured velocity 1 and `dt = 1` leave different states: the raw
history is `[1, 0, 0]` after the first call and `[1, 1, 0]` after the second. -/
theorem run_estop_twice_state_differs :
    (run (run (OdomControl.default 0) true false 0 1 1 0).2 true false 0 1 1 0).2 ≠
      (run (OdomControl.default 0) true false 0 1 1 0).2 := by
  decide!

/-- Claim C4, as amended.  Calling `run` with `e_stop_on = true` twice in a row
with the same arguments and `dt > 0` returns 125 both times, and the state after
the second call equals the state after the first call in every member except
the raw-velocity history `velocity_history_`, into which the second call has
pushed the measured velocity once more (oldest entry dropped). -/
theorem run_estop_twice (s : OdomControl) (control_on : Bool)
    (commanded_vel measured_vel dt : ℚ) (firmwareBuildNumber : Int) (_hdt : 0 < dt) :
    (run s true control_on commanded_vel measured_vel dt firmwareBuildNumber).1 = 125 ∧
    (run (run s true control_on commanded_vel measured_vel dt firmwareBuildNumber).2
        true control_on commanded_vel measured_vel dt firmwareBuildNumber).1 = 125 ∧
    (run (run s true control_on commanded_vel measured_vel dt firmwareBuildNumber).2
        true control_on commanded_vel measured_vel dt firmwareBuildNumber).2 =
      { (run s true control_on commanded_vel measured_vel dt firmwareBuildNumber).2 with
        velocity_history_ :=
          (measured_vel ::
            (run s true control_on commanded_vel measured_vel dt
              firmwareBuildNumber).2.velocity_history_).dropLast } := by
  simp only [run_estop_state, true_and]
  have hl := filterStage_lengths (reset (filterStage s commanded_vel measured_vel dt
    firmwareBuildNumber)) commanded_vel measured_vel dt firmwareBuildNumber
  have hv := filterStage_velocity_history (reset (filterStage s commanded_vel measured_vel dt
    firmwareBuildNumber)) commanded_vel measured_vel dt firmwareBuildNumber
  generalize filterStage s commanded_vel measured_vel dt firmwareBuildNumber = s1 at *
  simp only [reset, OdomControl.mk.injEq, map_zero_eq_replicate] at *
  simp only [filterStage, filter] at *
  split_ifs at * <;> simp_all

/-- The theorem above at a concrete input. -/
theorem run_estop_twice_witness :
    (run (OdomControl.default 0) true false 0 1 1 0).1 = 125 ∧
    (run (run (OdomControl.default 0) true false 0 1 1 0).2 true false 0 1 1 0).1 = 125 ∧
    (run (run (OdomControl.default 0) true false 0 1 1 0).2 true false 0 1 1 0).2 =
      { (run (OdomControl.default 0) true false 0 1 1 0).2 with
        velocity_history_ :=
          ((1 : ℚ) ::
            (run (OdomControl.default 0) true false 0 1 1 0).2.velocity_history_).dropLast } :=
  run_estop_twice (OdomControl.default 0) false 0 1 1 0 (by norm_num)

/-- Claim C5, counterexample.  A controller with `Kp = 100` is run for one tick
at measured velocity 1 and two ticks at measured velocity 0 (`dt = 1`).  On the
next tick, with commanded velocity 0 and measured velocity 0, the filtered
velocity is below 0.3 and the raw history `velocity_history_` is `[0, 0, 0]`,
so its mean is below 0.03, yet `run` returns 121 and not 125. -/
theorem run_settle_raw_fails :
    fabs (filterStage
        (runAll (OdomControl.construct true ⟨100, 0, 0⟩ 250 0 0)
          [⟨false, true, 1, 1, 1, 0⟩, ⟨false, true, 0, 0, 1, 0⟩, ⟨false, true, 0, 0, 1, 0⟩])
        0 0 1 0).velocity_filtered_ < 0.3 ∧
    hasZeroHistory (filterStage
        (runAll (OdomControl.construct true ⟨100, 0, 0⟩ 250 0 0)
          [⟨false, true, 1, 1, 1, 0⟩, ⟨false, true, 0, 0, 1, 0⟩, ⟨false, true, 0, 0, 1, 0⟩])
        0 0 1 0).velocity_history_ = true ∧
    (run
        (runAll (OdomControl.construct true ⟨100, 0, 0⟩ 250 0 0)
          [⟨false, true, 1, 1, 1, 0⟩, ⟨false, true, 0, 0, 1, 0⟩, ⟨false, true, 0, 0, 1, 0⟩])
        false true 0 0 1 0).1 = 121 := by
  decide!

/-- Claim C5, as amended.  For every controller state, when `run` is called with
estop off, commanded velocity exactly 0 and `dt > 0`, and after this tick's
filter stage the filtered velocity magnitude is below 0.3 and the mean absolute
value of the three newest entries of the filtered history
`velocity_filtered_history_` is below 0.03, the call returns exactly 125,
whether `control_on` is true or false and whatever the gains are. -/
theorem run_settle_filtered (s : OdomControl) (control_on : Bool)
    (measured_vel dt : ℚ) (firmwareBuildNumber : Int) (_hdt : 0 < dt)
    (hfilt : fabs (filterStage s 0 measured_vel dt firmwareBuildNumber).velocity_filtered_ < 0.3)
    (hzero : hasZeroHistory
      (filterStage s 0 measured_vel dt firmwareBuildNumber).velocity_filtered_history_ = true) :
    (run s false control_on 0 measured_vel dt firmwareBuildNumber).1 = 125 := by
  have hs := stopSettle_histories (filterStage s 0 measured_vel dt firmwareBuildNumber) 0
  have hstop : stopping (filterStage s 0 measured_vel dt firmwareBuildNumber) 0 = true := by
    simp [stopping, hfilt]
  simp [run, hstop, hs.1, hzero]

/-- The theorem above at a concrete input. -/
theorem run_settle_filtered_witness :
    (run (OdomControl.construct true ⟨10000, 1, 1⟩ 250 0 0) false true 0 (1 / 100) 1 0).1 = 125 :=
  run_settle_filtered (OdomControl.construct true ⟨10000, 1, 1⟩ 250 0 0) true (1 / 100) 1 0
    (by norm_num) (by decide!) (by decide!)

/-- Claim C6.  Anti-windup freeze: if a control-branch tick of `run` (estop off,
`control_on` true, `dt > 0`, measurements in use, not short-circuited by the
stop-settle branch) computes a combined value `p + i + d` whose magnitude exceeds
`MOTOR_MAX_ / 2`, then the control-branch tick that follows it with a non-zero
commanded velocity leaves `integral_error_` at its value after the first tick,
whatever the second tick's measured velocity, error and `dt` are. -/
theorem integral_frozen_after_saturation (s : OdomControl)
    (c1 m1 dt1 : ℚ) (fw1 : Int) (c2 m2 dt2 : ℚ) (fw2 : Int)
    (_hdt1 : 0 < dt1) (_hdt2 : 0 < dt2)
    (hskip : s.skip_measurement_ = false)
    (hrun : (stopping (filterStage s c1 m1 dt1 fw1) c1 &&
      hasZeroHistory
        (stopSettle (filterStage s c1 m1 dt1 fw1) c1).velocity_filtered_history_) = false)
    (hsat : fabs (pidVal (controlInput (stopSettle (filterStage s c1 m1 dt1 fw1) c1) c1)
        (controlInput (stopSettle (filterStage s c1 m1 dt1 fw1) c1) c1).velocity_error_ dt1).1 >
      (s.MOTOR_MAX_ : ℚ) / 2)
    (hc2 : c2 ≠ 0) :
    (run (run s false true c1 m1 dt1 fw1).2 false true c2 m2 dt2 fw2).2.integral_error_ =
      (run s false true c1 m1 dt1 fw1).2.integral_error_ :=
  run_frozen_keeps_integral _ c2 m2 dt2 fw2
    (run_saturated_sets_frozen s c1 m1 dt1 fw1 hskip hrun hsat) hc2

/-- The theorem above at a concrete input. -/
theorem integral_frozen_after_saturation_witness :
    (run (run (OdomControl.construct true ⟨1000, 1, 0⟩ 250 0 0) false true 1 0 (1 / 10) 0).2
        false true 1 0 (1 / 10) 0).2.integral_error_ =
      (run (OdomControl.construct true ⟨1000, 1, 0⟩ 250 0 0)
        false true 1 0 (1 / 10) 0).2.integral_error_ :=
  integral_frozen_after_saturation (OdomControl.construct true ⟨1000, 1, 0⟩ 250 0 0)
    1 0 (1 / 10) 0 1 0 (1 / 10) 0 (by norm_num) (by norm_num) rfl (by decide!) (by decide!)
    (by norm_num)

/-- Claim C7.  Proportional-only scenario: a controller constructed with gains
`Kp = 1, Ki = 0, Kd = 0` and command range 0..250, run for 10 consecutive ticks
with estop off, control on, commanded velocity 1, measured velocity 0 and
`dt = 0.1` (any fixed firmware build number), returns 10 commands that are
non-decreasing, each strictly above 125 and at most 250. -/
theorem proportional_scenario (use_control : Bool) (speed0 firmwareBuildNumber : Int) :
    (runOutputs (OdomControl.construct use_control ⟨1, 0, 0⟩ 250 0 speed0)
        (List.replicate 10 ⟨false, true, 1, 0, 1 / 10, firmwareBuildNumber⟩)).length = 10 ∧
    List.Chain' (fun a b : Int => a ≤ b)
      (runOutputs (OdomControl.construct use_control ⟨1, 0, 0⟩ 250 0 speed0)
        (List.replicate 10 ⟨false, true, 1, 0, 1 / 10, firmwareBuildNumber⟩)) ∧
    ∀ c ∈ runOutputs (OdomControl.construct use_control ⟨1, 0, 0⟩ 250 0 speed0)
        (List.replicate 10 ⟨false, true, 1, 0, 1 / 10, firmwareBuildNumber⟩),
      125 < c ∧ c ≤ 250 := by
  have hs : ProportionalOnly (OdomControl.construct use_control ⟨1, 0, 0⟩ 250 0 speed0) := by
    unfold ProportionalOnly OdomControl.construct
    norm_num [List.replicate]
  rw [runOutputs_proportional 10 _ (1 / 10) firmwareBuildNumber hs]
  refine ⟨by simp, by simp [List.replicate], ?_⟩
  intro c hc
  rw [List.eq_of_mem_replicate hc]
  omega

/-- Claim C8, the code at the failing input.  On a controller constructed with
command range 0..250, the open-loop call with commanded velocity 125 has
shifted value `round(125 + 125) = 250`, inside the command range, and `run`
returns 0 instead of 250. -/
theorem feedThrough_full_forward_wraps :
    roundToInt ((125 : ℚ) + 125) = 250 ∧
      (run (OdomControl.construct false ⟨0, 0, 0⟩ 250 0 0) false false 125 0 (1 / 10) 0).1 = 0 := by
  decide!

/-- Claim C9.  Deadband compensation pushes away from neutral: for every motor
command `m` different from 125 and every offset `d ≥ 0` for which `m - d` and
`m + d` are representable as a 32-bit `int`, `deadbandOffset m d` returns
`m + d` when `m > 125` and `m - d` when `m < 125`; the result `r` satisfies
`|r - 125| = |m - 125| + d` and lies on the same side of 125 as `m`. -/
theorem deadbandOffset_pushes_away (m d : Int) (hm : m ≠ 125) (hd : 0 ≤ d)
    (hlo : -2147483648 ≤ m - d) (hhi : m + d ≤ 2147483647) :
    ∃ r, deadbandOffset m d = some r ∧
      (125 < m → r = m + d) ∧ (m < 125 → r = m - d) ∧
      |r - 125| = |m - 125| + d ∧ (125 < r ↔ 125 < m) ∧ (r < 125 ↔ m < 125) := by
  rcases lt_or_gt_of_ne hm with h | h
  · refine ⟨m - d, ?_, ?_, ?_, ?_, ?_, ?_⟩
    · have hw := wrapInt32_of_inRange (m - d) hlo (by omega)
      simp only [deadbandOffset, hw]
      rw [if_neg (by omega), if_pos h]
    · intro h2; omega
    · intro _; rfl
    · rw [abs_of_neg (by omega), abs_of_neg (by omega)]; ring
    · constructor <;> intro h2 <;> omega
    · constructor <;> intro h2 <;> omega
  · refine ⟨m + d, ?_, ?_, ?_, ?_, ?_, ?_⟩
    · have hw := wrapInt32_of_inRange (m + d) (by omega) hhi
      simp only [deadbandOffset, hw]
      rw [if_pos h]
    · intro _; rfl
    · intro h2; omega
    · rw [abs_of_pos (by omega), abs_of_pos (by omega)]; ring
    · constructor <;> intro h2 <;> omega
    · constructor <;> intro h2 <;> omega

/-- The theorem above at a concrete input. -/
theorem deadbandOffset_pushes_away_witness :
    deadbandOffset 130 9 = some 139 ∧ deadbandOffset 120 9 = some 111 ∧
    ∃ r, deadbandOffset 130 9 = some r ∧
      (125 < (130 : Int) → r = 130 + 9) ∧ ((130 : Int) < 125 → r = 130 - 9) ∧
      |r - 125| = |(130 : Int) - 125| + 9 ∧ (125 < r ↔ 125 < (130 : Int)) ∧
      (r < 125 ↔ (130 : Int) < 125) :=
  ⟨by decide, by decide,
    deadbandOffset_pushes_away 130 9 (by decide) (by decide) (by decide) (by decide)⟩

/-- Claim C15, counterexample.  On the default-constructed controller (filtered
history all zero) an estop tick with measured velocity 1 and `dt = 1` computes
the filtered velocity 0.1, and the filtered history after the call is all zero,
not `[0.1, 0, 0, 0, 0]`. -/
theorem run_estop_wipes_push :
    (filter (OdomControl.default 0) 1 1 (Int.tdiv 0 100)).1 = 1 / 10 ∧
    (run (OdomControl.default 0) true false 0 1 1 0).2.velocity_filtered_history_ =
      [0, 0, 0, 0, 0] ∧
    (run (OdomControl.default 0) true false 0 1 1 0).2.velocity_filtered_history_ ≠
      [(filter (OdomControl.default 0) 1 1 (Int.tdiv 0 100)).1, 0, 0, 0, 0] := by
  decide!

/-- Claim C15, as amended.  For every controller state with filtered history
`[h0, h1, h2, h3, h4]` and every call of `run` with `dt > 0`: with estop off the
filtered history after the call is `[f, h0, h1, h2, h3]`, where `f` is the
filtered velocity computed by this tick's filter stage; with estop on the
filtered history after the call is `[0, 0, 0, 0, 0]`. -/
theorem run_filtered_history (s : OdomControl) (h0 h1 h2 h3 h4 : ℚ)
    (e_stop_on control_on : Bool) (commanded_vel measured_vel dt : ℚ)
    (firmwareBuildNumber : Int)
    (hhist : s.velocity_filtered_history_ = [h0, h1, h2, h3, h4]) (_hdt : 0 < dt) :
    (run s e_stop_on control_on commanded_vel measured_vel dt
        firmwareBuildNumber).2.velocity_filtered_history_ =
      if e_stop_on then [0, 0, 0, 0, 0]
      else [(filter s measured_vel dt (Int.tdiv firmwareBuildNumber 100)).1, h0, h1, h2, h3] := by
  have hf := filterStage_filtered_history s commanded_vel measured_vel dt firmwareBuildNumber
  rw [hhist, filterStage_velocity_filtered] at hf
  cases e_stop_on
  · rw [(run_histories s control_on commanded_vel measured_vel dt firmwareBuildNumber).1, hf]
    rfl
  · rw [run_estop_state]
    simp only [reset, hf, ↓reduceIte]
    rfl

/-- The theorem above at a concrete input. -/
theorem run_filtered_history_witness :
    (run (OdomControl.default 0) false true 1 1 1 0).2.velocity_filtered_history_ =
      [1 / 10, 0, 0, 0, 0] :=
  (run_filtered_history (OdomControl.default 0) 0 0 0 0 0 false true 1 1 1 0 (by decide!)
    (by norm_num)).trans (by decide!)

/-- Claim C16.  Bound stage: for all integers `s`, `max`, `min` with
`min ≤ max`, whatever the state and its flags were before the call,
`boundMotorSpeed` returns `max` if `s > max`, `min` if `s < min` and `s`
otherwise; afterwards `at_max_motor_speed_` is true exactly when `s > max`,
`at_min_motor_speed_` is true exactly when `s < min`, and the two flags are
never both true. -/
theorem boundMotorSpeed_spec (st : OdomControl) (s max min : Int) (h : min ≤ max) :
    (boundMotorSpeed st s max min).1 = (if s > max then max else if s < min then min else s) ∧
    ((boundMotorSpeed st s max min).2.at_max_motor_speed_ = true ↔ s > max) ∧
    ((boundMotorSpeed st s max min).2.at_min_motor_speed_ = true ↔ s < min) ∧
    ¬((boundMotorSpeed st s max min).2.at_max_motor_speed_ = true ∧
      (boundMotorSpeed st s max min).2.at_min_motor_speed_ = true) := by
  simp only [boundMotorSpeed]
  by_cases h1 : s > max
  · have h2 : ¬ max < min := by omega
    have h3 : ¬ s < min := by omega
    simp [h1, h2, h3]
  · by_cases h2 : s < min
    · simp [h1, h2]
    · simp [h1, h2]

/-- The theorem above at a concrete input. -/
theorem boundMotorSpeed_spec_witness :
    (boundMotorSpeed (OdomControl.default 0) 300 250 0).1 = 250 ∧
    (boundMotorSpeed (OdomControl.default 0) 300 250 0).2.at_max_motor_speed_ = true ∧
    (boundMotorSpeed (OdomControl.default 0) 300 250 0).2.at_min_motor_speed_ = false :=
  ⟨(boundMotorSpeed_spec (OdomControl.default 0) 300 250 0 (by decide)).1.trans (by decide),
    (boundMotorSpeed_spec (OdomControl.default 0) 300 250 0 (by decide)).2.1.mpr (by decide),
    by decide⟩

/-- Claim C18.  Open-loop zero command is always neutral: for every controller
with `MOTOR_MIN_ ≤ 125 ≤ MOTOR_MAX_`, every state, every measured velocity,
every `dt > 0` and every firmware build number, `run` with estop off,
`control_on` false and commanded velocity exactly 0 returns 125, whether or not
the stop-settle condition holds. -/
theorem run_open_loop_zero (s : OdomControl) (measured_vel dt : ℚ)
    (firmwareBuildNumber : Int)
    (hmin : s.MOTOR_MIN_ ≤ 125) (hmax : 125 ≤ s.MOTOR_MAX_) (_hdt : 0 < dt) :
    (run s false false 0 measured_vel dt firmwareBuildNumber).1 = 125 := by
  have hf := filterStage_bounds s 0 measured_vel dt firmwareBuildNumber
  have hs := stopSettle_bounds (filterStage s 0 measured_vel dt firmwareBuildNumber) 0
  have hc : (stopSettle (filterStage s 0 measured_vel dt firmwareBuildNumber)
      0).velocity_commanded_ = 0 := by
    rw [stopSettle_velocity_commanded, filterStage_velocity_commanded]
  simp only [run, Bool.false_eq_true, ↓reduceIte]
  split_ifs with h2
  · rfl
  · have h125 : roundToInt ((0 : ℚ) + 125) = 125 := by
      rw [zero_add]
      exact roundToInt_intCast 125 (by norm_num) (by norm_num)
    have hm : (controlBranch (stopSettle (filterStage s 0 measured_vel dt firmwareBuildNumber) 0)
        false 0 dt).motor_speed_ = 125 := by
      simp only [controlBranch, feedThroughControl, hc, Bool.false_eq_true, ↓reduceIte, h125]
      decide
    have hb := controlBranch_bounds
      (stopSettle (filterStage s 0 measured_vel dt firmwareBuildNumber) 0) false 0 dt
    simp only [hm, hb.1, hb.2, hs.1, hs.2, hf.1, hf.2, boundMotorSpeed, toUnsignedChar]
    split_ifs <;> omega

/-- The theorem above at a concrete input. -/
theorem run_open_loop_zero_witness :
    (run (runAll (OdomControl.construct false ⟨1, 1, 1⟩ 200 100 0)
        [⟨false, false, 50, 2, 1 / 10, 0⟩]) false false 0 2 (1 / 10) 0).1 = 125 :=
  run_open_loop_zero
    (runAll (OdomControl.construct false ⟨1, 1, 1⟩ 200 100 0) [⟨false, false, 50, 2, 1 / 10, 0⟩])
    2 (1 / 10) 0 (by decide!) (by decide!) (by norm_num)

/-- Claim C19.  Stop-settle keys on the filtered history alone: for every
controller state whose filtered history has its 5 entries, when `run` is called
with estop off, commanded velocity exactly 0 and `dt > 0`, and after this tick's
filter stage the mean of the absolute values of the three newest
filtered-history entries is below 0.03, then the filtered velocity magnitude is
below 0.3, the call returns 125 and `integral_error_` is 0 afterwards,
regardless of `control_on`, the gains and the raw-velocity history. -/
theorem run_settle_filtered_history_alone (s : OdomControl) (control_on : Bool)
    (measured_vel dt : ℚ) (firmwareBuildNumber : Int)
    (hlen : s.velocity_filtered_history_.length = 5) (_hdt : 0 < dt)
    (hzero : hasZeroHistory
      (filterStage s 0 measured_vel dt firmwareBuildNumber).velocity_filtered_history_ = true) :
    fabs (filterStage s 0 measured_vel dt firmwareBuildNumber).velocity_filtered_ < 0.3 ∧
    (run s false control_on 0 measured_vel dt firmwareBuildNumber).1 = 125 ∧
    (run s false control_on 0 measured_vel dt firmwareBuildNumber).2.integral_error_ = 0 := by
  have hh := filterStage_filtered_history s 0 measured_vel dt firmwareBuildNumber
  have hs := stopSettle_histories (filterStage s 0 measured_vel dt firmwareBuildNumber) 0
  obtain ⟨a, l, hl⟩ : ∃ a l, s.velocity_filtered_history_ = a :: l := by
    cases hcase : s.velocity_filtered_history_ with
    | nil => rw [hcase] at hlen; simp at hlen
    | cons a l => exact ⟨a, l, rfl⟩
  have hfilt : fabs (filterStage s 0 measured_vel dt firmwareBuildNumber).velocity_filtered_
      < 0.3 := by
    rw [hh, hl] at hzero
    generalize (filterStage s 0 measured_vel dt firmwareBuildNumber).velocity_filtered_ = f
      at hzero ⊢
    simp only [hasZeroHistory, List.dropLast_cons₂, List.getD_cons_zero] at hzero
    split_ifs at hzero with h3
    norm_num at h3 ⊢
    linarith [fabs_nonneg ((a :: l).dropLast[0]?.getD 0),
      fabs_nonneg ((a :: l).dropLast[1]?.getD 0)]
  have hstop : stopping (filterStage s 0 measured_vel dt firmwareBuildNumber) 0 = true := by
    simp [stopping, hfilt]
  refine ⟨hfilt, ?_, ?_⟩
  · simp [run, hstop, hs.1, hzero]
  · simp only [run, hstop, hs.1, hzero, Bool.and_self, Bool.false_eq_true, ↓reduceIte]
    exact stopSettle_integral _ 0 hstop

/-- The theorem above at a concrete input. -/
theorem run_settle_filtered_history_alone_witness :
    (run (OdomControl.construct true ⟨10000, 1, 1⟩ 250 0 0) false true 0 (1 / 100) 1 0).1 = 125 :=
  (run_settle_filtered_history_alone (OdomControl.construct true ⟨10000, 1, 1⟩ 250 0 0) true
    (1 / 100) 1 0 (by decide) (by norm_num) (by decide!)).2.1

end RoverRobotics
